import Mathlib

/-!
Verification of the fetch-and-aggregate pipeline of the pingdom report tool
(`src/main.rs`): the uptime reducer (`PingdomApi::calculate_uptime`), the
remote summary client (`PingdomApi::get_perf_summary`), the orchestrator's
collection step and the result ranker (both in `main`).

Modelling conventions:
* Rust `u64` counters are modelled as `Nat`.  The source adds weekly second
  counts; an overflow would panic in a debug build and requires totals of at
  least 2^64 seconds, so the additions are modelled as unbounded naturals.
* Rust `f64` percentage arithmetic is modelled over `ℚ`.  `f64::round` rounds
  half away from zero, which on the nonnegative values arising here agrees
  with Mathlib's `round` (half up).
* `serde_json::Number::from_f64` returns `None` on NaN, so the
  `.unwrap()` on line 113 of the source panics exactly when the percentage
  computation divides `0.0` by `0.0`, i.e. when `max_uptime = 0`.  A panic
  is modelled by returning `none`.
* Rust `String` comparison is bytewise on UTF-8, which coincides with the
  codepoint-lexicographic order of Lean's `String` `≤`.
-/

namespace Pingdom

/-- One row of `summary.weeks` from the remote service: `uptime`, `downtime`
and `unmonitored` seconds, read with `as_u64().unwrap()` in the source. -/
structure WeeklyRecord where
  uptime : Nat
  downtime : Nat
  unmonitored : Nat
deriving DecidableEq

/-- The per-check aggregate built by `calculate_uptime` (source lines 85-115).
The source keeps a `HashMap<String, Value>` with exactly these keys; the
structure gives each key a field. -/
structure UptimeStat where
  id : String
  name : String
  uptime : Nat
  downtime : Nat
  unmonitored : Nat
  max_uptime : Nat
  downtime_mins : Nat
  percentage : ℚ
deriving DecidableEq

/-- The body of the `for u in ... weeks` loop (source lines 97-107): each
record's seconds are added to the running totals, and `downtime_mins`
accumulates the record's `downtime / 60` (integer division, per record). -/
def fold_step (acc : UptimeStat) (u : WeeklyRecord) : UptimeStat :=
  { acc with
    uptime := acc.uptime + u.uptime
    downtime := acc.downtime + u.downtime
    downtime_mins := acc.downtime_mins + u.downtime / 60
    unmonitored := acc.unmonitored + u.unmonitored }

/-- `PingdomApi::calculate_uptime` (source lines 78-116), given the already
decoded `summary.weeks` records.  All counters start at zero; after the fold,
`max_uptime` is the sum of the folded `uptime`, `downtime` and `unmonitored`
totals, and the percentage is
`((uptime + unmonitored) / max_uptime * 100 * 10000).round() / 10000`.
When `max_uptime = 0` the `f64` division is `0.0/0.0 = NaN`,
`serde_json::Number::from_f64(NaN)` is `None`, and the `.unwrap()` panics:
modelled as `none`. -/
def calculate_uptime (check_id check_name : String) (weeks : List WeeklyRecord) :
    Option UptimeStat :=
  let init : UptimeStat :=
    { id := check_id, name := check_name, uptime := 0, downtime := 0,
      unmonitored := 0, max_uptime := 0, downtime_mins := 0, percentage := 0 }
  let folded := weeks.foldl fold_step init
  let max_uptime := folded.uptime + folded.downtime + folded.unmonitored
  if max_uptime = 0 then
    none
  else
    some { folded with
      max_uptime := max_uptime
      percentage :=
        (round (((folded.uptime : ℚ) + (folded.unmonitored : ℚ)) / (max_uptime : ℚ)
          * 100 * 10000) : ℤ) / 10000 }

/-- The error taxonomy named by the specification for the remote summary
client: transport failure, undecodable body, non-success HTTP status.  The
source's `Box<dyn Error>` values occurring in practice are transport errors
from `reqwest` (`network`) and `serde_json` parse errors (`decode`). -/
inductive FetchError where
  | network : FetchError
  | decode : FetchError
  | remoteRejected : FetchError
deriving DecidableEq

/-- The observable outcome of the HTTP transport underneath
`get_perf_summary`: either the request fails outright (connection error or
timeout inside `send()`), or the server answers with some status code and a
body text. -/
inductive HttpOutcome where
  | netError : HttpOutcome
  | response (status : Nat) (body : String) : HttpOutcome
deriving DecidableEq

/-- `PingdomApi::get_perf_summary` (source lines 60-76) as a function of the
transport outcome.  The source propagates a transport error with `?` and
otherwise returns `Ok(response.text().await?)`; the HTTP status code of the
response is never inspected. -/
def get_perf_summary : HttpOutcome → Except FetchError String
  | HttpOutcome.netError => Except.error FetchError.network
  | HttpOutcome.response _ body => Except.ok body

/-- The orchestrator's collection step (source line 175): the collected
per-check results, `uptime_calculations.into_iter().filter_map(Result::ok)` —
successes are kept, failed units are dropped. -/
def collectOk (results : List (Except FetchError UptimeStat)) : List UptimeStat :=
  results.filterMap fun r =>
    match r with
    | Except.ok s => some s
    | Except.error _ => none

/-- One character of `serde_json`'s string serialization: `"` and `\` are
escaped, the control characters BS, FF, LF, CR, TAB have short escapes,
remaining control characters below U+0020 become `\u00XX` (lowercase hex),
and every other character is emitted as is. -/
def escape_char (c : Char) : List Char :=
  if c = '"' then ['\\', '"']
  else if c = '\\' then ['\\', '\\']
  else if c = '\x08' then ['\\', 'b']
  else if c = '\x0C' then ['\\', 'f']
  else if c = '\n' then ['\\', 'n']
  else if c = '\r' then ['\\', 'r']
  else if c = '\t' then ['\\', 't']
  else if c.toNat < 0x20 then
    ['\\', 'u', '0', '0',
      (if c.toNat / 16 < 10 then Char.ofNat (48 + c.toNat / 16)
        else Char.ofNat (87 + c.toNat / 16)),
      (if c.toNat % 16 < 10 then Char.ofNat (48 + c.toNat % 16)
        else Char.ofNat (87 + c.toNat % 16))]
  else [c]

/-- `serde_json::Value::String(s).to_string()`: the JSON representation of a
string as a character sequence — a double quote, the escaped characters, a
double quote. -/
def json_chars (s : String) : List Char :=
  '"' :: s.data.foldr (fun c acc => escape_char c ++ acc) ['"']

/-- Rust's `String::cmp` is bytewise lexicographic on the UTF-8 encoding,
which coincides with codepoint-lexicographic order: `bytes_le a b` decides
`a ≤ b` in that order (a proper prefix is smaller). -/
def bytes_le : List Char → List Char → Bool
  | [], _ => true
  | _ :: _, [] => false
  | a :: as, b :: bs =>
    if a.toNat < b.toNat then true
    else if b.toNat < a.toNat then false
    else bytes_le as bs

/-- The sort key used on source line 176: `a["name"].to_string()`, i.e. the
JSON serialization of the stat's `name` value, not the raw name. -/
def rank_key (s : UptimeStat) : List Char :=
  json_chars s.name

/-- The comparator of source line 176, as a relation:
`a["name"].to_string().cmp(&b["name"].to_string())` is not `Greater`. -/
def rank_le (a b : UptimeStat) : Prop :=
  bytes_le (rank_key a) (rank_key b) = true

theorem bytes_le_refl (l : List Char) : bytes_le l l = true := by
  induction l with
  | nil => rfl
  | cons c cs ih => simp [bytes_le, ih]

theorem bytes_le_total (a b : List Char) :
    bytes_le a b = true ∨ bytes_le b a = true := by
  induction a generalizing b with
  | nil => exact Or.inl rfl
  | cons c cs ih =>
    cases b with
    | nil => exact Or.inr rfl
    | cons d ds =>
      rcases Nat.lt_trichotomy c.toNat d.toNat with h | h | h
      · exact Or.inl (by simp [bytes_le, h])
      · rcases ih ds with h' | h'
        · exact Or.inl (by simp [bytes_le, h, h'])
        · exact Or.inr (by simp [bytes_le, h, h'])
      · exact Or.inr (by simp [bytes_le, h])

theorem bytes_le_trans {a b c : List Char} (hab : bytes_le a b = true)
    (hbc : bytes_le b c = true) : bytes_le a c = true := by
  induction a generalizing b c with
  | nil => rfl
  | cons x xs ih =>
    cases b with
    | nil => simp [bytes_le] at hab
    | cons y ys =>
      cases c with
      | nil => simp [bytes_le] at hbc
      | cons z zs =>
        simp only [bytes_le] at hab hbc ⊢
        rcases Nat.lt_trichotomy x.toNat y.toNat with h1 | h1 | h1 <;>
          rcases Nat.lt_trichotomy y.toNat z.toNat with h2 | h2 | h2 <;>
          simp_all [Nat.lt_irrefl] <;>
          first
          | (exact absurd (h1.trans h2) (by omega))
          | (exact ih hab hbc)
          | omega

instance : DecidableRel rank_le :=
  fun a b => inferInstanceAs (Decidable (bytes_le (rank_key a) (rank_key b) = true))

instance : IsTotal UptimeStat rank_le :=
  ⟨fun a b => bytes_le_total (rank_key a) (rank_key b)⟩

instance : IsTrans UptimeStat rank_le :=
  ⟨fun _ _ _ hab hbc => bytes_le_trans hab hbc⟩

/-- The result ranker (source line 176):
`uptime_calculations.sort_by(|a, b| a["name"].to_string().cmp(&b["name"].to_string()))`.
Rust's `sort_by` is a stable sort; a stable sort's output is uniquely
determined by the key order, so it is modelled by insertion sort, which is
stable for this comparator shape. -/
def rank (stats : List UptimeStat) : List UptimeStat :=
  stats.insertionSort rank_le

/-- Folding the week records adds, component by component, the sums of the
record fields to the accumulator; `downtime_mins` accumulates the per-record
truncated minutes. -/
theorem foldl_fold_step (l : List WeeklyRecord) (acc : UptimeStat) :
    l.foldl fold_step acc =
      { acc with
        uptime := acc.uptime + (l.map WeeklyRecord.uptime).sum
        downtime := acc.downtime + (l.map WeeklyRecord.downtime).sum
        downtime_mins := acc.downtime_mins + (l.map (fun u => u.downtime / 60)).sum
        unmonitored := acc.unmonitored + (l.map WeeklyRecord.unmonitored).sum } := by
  induction l generalizing acc with
  | nil => simp
  | cons u l ih =>
    simp [List.foldl_cons, ih, fold_step, Nat.add_assoc]

/-- The percentage bound argument, factored over the folded totals: with a
nonzero denominator `A + B + C`, the rounded percentage lies in `[0, 100]`
and is an integer multiple of `1 / 10000`. -/
theorem percentage_aux (A B C : ℕ) (h : A + B + C ≠ 0) :
    0 ≤ (round (((A : ℚ) + (C : ℚ)) / ((A + B + C : ℕ) : ℚ) * 100 * 10000) : ℚ) / 10000 ∧
    (round (((A : ℚ) + (C : ℚ)) / ((A + B + C : ℕ) : ℚ) * 100 * 10000) : ℚ) / 10000 ≤ 100 := by
  have hM : (0 : ℚ) < ((A + B + C : ℕ) : ℚ) := by
    exact_mod_cast Nat.pos_of_ne_zero h
  have hnum : (0 : ℚ) ≤ (A : ℚ) + (C : ℚ) := by positivity
  have hle : (A : ℚ) + (C : ℚ) ≤ ((A + B + C : ℕ) : ℚ) := by
    push_cast
    linarith [Nat.cast_nonneg (α := ℚ) B]
  have hq0 : (0 : ℚ) ≤ ((A : ℚ) + (C : ℚ)) / ((A + B + C : ℕ) : ℚ) := by positivity
  have hq1 : ((A : ℚ) + (C : ℚ)) / ((A + B + C : ℕ) : ℚ) ≤ 1 :=
    (div_le_one hM).mpr hle
  have hx0 : (0 : ℚ) ≤ ((A : ℚ) + (C : ℚ)) / ((A + B + C : ℕ) : ℚ) * 100 * 10000 := by
    positivity
  have hx1 : ((A : ℚ) + (C : ℚ)) / ((A + B + C : ℕ) : ℚ) * 100 * 10000 ≤ 1000000 := by
    nlinarith
  have hr0 : (0 : ℤ) ≤ round (((A : ℚ) + (C : ℚ)) / ((A + B + C : ℕ) : ℚ) * 100 * 10000) := by
    rw [round_eq]
    exact Int.floor_nonneg.mpr (by linarith)
  have hr1 : round (((A : ℚ) + (C : ℚ)) / ((A + B + C : ℕ) : ℚ) * 100 * 10000) ≤ 1000000 := by
    rw [round_eq]
    have hfl : (⌊(((A : ℚ) + (C : ℚ)) / ((A + B + C : ℕ) : ℚ) * 100 * 10000) + 1 / 2⌋ : ℤ)
        ≤ ⌊(1000000 : ℚ) + 1 / 2⌋ := Int.floor_le_floor (by linarith)
    have : (⌊(1000000 : ℚ) + 1 / 2⌋ : ℤ) = 1000000 := by
      rw [Int.floor_eq_iff]
      norm_num
    omega
  constructor
  · have : (0 : ℚ) ≤
        (round (((A : ℚ) + (C : ℚ)) / ((A + B + C : ℕ) : ℚ) * 100 * 10000) : ℚ) := by
      exact_mod_cast hr0
    positivity
  · rw [div_le_iff₀ (by norm_num : (0 : ℚ) < 10000)]
    have : (round (((A : ℚ) + (C : ℚ)) / ((A + B + C : ℕ) : ℚ) * 100 * 10000) : ℚ)
        ≤ 1000000 := by exact_mod_cast hr1
    linarith

/-- C1: for the records `[{500000,1200,0}, {500000,0,300}]` the reducer does
not produce the percentage 99.8801 claimed by the specification: the exact
value of `round4((1000300/1001500)*100)` is 99.8802, and that is what the
fold computes. -/
theorem c1_percentage_example_counterexample :
    (calculate_uptime "1" "check"
        [⟨500000, 1200, 0⟩, ⟨500000, 0, 300⟩]).map UptimeStat.percentage ≠
      some (998801 / 10000 : ℚ) := by
  have h : calculate_uptime "1" "check" [⟨500000, 1200, 0⟩, ⟨500000, 0, 300⟩] =
      some { id := "1", name := "check", uptime := 1000000, downtime := 1200,
             unmonitored := 300, max_uptime := 1001500, downtime_mins := 20,
             percentage := 499401 / 5000 } := by
    simp only [calculate_uptime, fold_step, List.foldl_cons, List.foldl_nil]
    norm_num [round_eq, Int.floor_eq_iff]
  rw [h]
  norm_num

/-- C1 (amended): for the records `[{500000,1200,0}, {500000,0,300}]` the
reducer produces `uptime = 1000000`, `downtime = 1200`, `unmonitored = 300`,
`max_uptime = 1001500`, `downtime_mins = 20` and
`percentage = round4((1000300/1001500)*100) = 99.8802`. -/
theorem c1_percentage_example_amended :
    calculate_uptime "1" "check" [⟨500000, 1200, 0⟩, ⟨500000, 0, 300⟩] =
      some { id := "1", name := "check", uptime := 1000000, downtime := 1200,
             unmonitored := 300, max_uptime := 1001500, downtime_mins := 20,
             percentage := 499401 / 5000 } := by
  simp only [calculate_uptime, fold_step, List.foldl_cons, List.foldl_nil]
  norm_num [round_eq, Int.floor_eq_iff]

/-- C2: on an empty record sequence the reducer does not return an all-zero
statistic with percentage `0.0`; `max_uptime` is `0`, the `f64` percentage is
`0.0 / 0.0 = NaN`, `serde_json::Number::from_f64(NaN)` is `None`, and the
`.unwrap()` on source line 113 panics — modelled as `none`. -/
theorem c2_empty_records_panic :
    calculate_uptime "1" "check" [] = none := rfl

/-- C3: `downtime_mins` is the sum of each record's `downtime / 60` (integer
division applied per record before summing), and this differs from dividing
the summed downtime once: two records of 30 downtime seconds give 0 minutes,
while the total 60 seconds would give 1. -/
theorem c3_downtime_mins_per_record :
    (∀ (i n : String) (l : List WeeklyRecord) (s : UptimeStat),
        calculate_uptime i n l = some s →
        s.downtime_mins = (l.map (fun u => u.downtime / 60)).sum) ∧
      (([⟨0, 30, 0⟩, ⟨0, 30, 0⟩] : List WeeklyRecord).map
          (fun u => u.downtime / 60)).sum ≠
        ((([⟨0, 30, 0⟩, ⟨0, 30, 0⟩] : List WeeklyRecord).map
          WeeklyRecord.downtime).sum) / 60 := by
  constructor
  · intro i n l s hs
    simp only [calculate_uptime, foldl_fold_step] at hs
    split_ifs at hs with h
    injection hs with hs
    subst hs
    simp
  · decide

theorem c3_downtime_mins_per_record_witness :
    ({ id := "1", name := "check", uptime := 0, downtime := 130, unmonitored := 0,
       max_uptime := 130, downtime_mins := 2, percentage := 0 } :
        UptimeStat).downtime_mins =
      (([⟨0, 130, 0⟩] : List WeeklyRecord).map (fun u => u.downtime / 60)).sum :=
  c3_downtime_mins_per_record.1 "1" "check" [⟨0, 130, 0⟩] _
    (by simp [calculate_uptime, fold_step])

/-- C4: for every non-empty record sequence on which the reducer returns, the
resulting `max_uptime` is the sum of the uptime, downtime and unmonitored
totals of the records — it is computed from the folded totals on source
line 109, never set independently. -/
theorem c4_max_uptime_eq_sum (i n : String) (l : List WeeklyRecord)
    (_hl : l ≠ []) (s : UptimeStat) (hs : calculate_uptime i n l = some s) :
    s.max_uptime = (l.map WeeklyRecord.uptime).sum +
      (l.map WeeklyRecord.downtime).sum + (l.map WeeklyRecord.unmonitored).sum := by
  simp only [calculate_uptime, foldl_fold_step] at hs
  split_ifs at hs with h
  injection hs with hs
  subst hs
  simp

theorem c4_max_uptime_eq_sum_witness :
    ({ id := "1", name := "check", uptime := 0, downtime := 130, unmonitored := 0,
       max_uptime := 130, downtime_mins := 2, percentage := 0 } :
        UptimeStat).max_uptime =
      (([⟨0, 130, 0⟩] : List WeeklyRecord).map WeeklyRecord.uptime).sum +
        (([⟨0, 130, 0⟩] : List WeeklyRecord).map WeeklyRecord.downtime).sum +
        (([⟨0, 130, 0⟩] : List WeeklyRecord).map WeeklyRecord.unmonitored).sum :=
  c4_max_uptime_eq_sum "1" "check" [⟨0, 130, 0⟩] (by simp) _
    (by simp [calculate_uptime, fold_step])

/-- C7: the reducer is invariant under permutation of its input records: a
reordered record sequence produces the same statistic (the fold only forms
commutative sums, and every other field is derived from them). -/
theorem c7_reduce_perm_invariant (i n : String) (l₁ l₂ : List WeeklyRecord)
    (h : l₁.Perm l₂) :
    calculate_uptime i n l₁ = calculate_uptime i n l₂ := by
  have hu : (l₁.map WeeklyRecord.uptime).sum = (l₂.map WeeklyRecord.uptime).sum :=
    (h.map WeeklyRecord.uptime).sum_eq
  have hd : (l₁.map WeeklyRecord.downtime).sum = (l₂.map WeeklyRecord.downtime).sum :=
    (h.map WeeklyRecord.downtime).sum_eq
  have hm : (l₁.map (fun u => u.downtime / 60)).sum =
      (l₂.map (fun u => u.downtime / 60)).sum :=
    (h.map (fun u => u.downtime / 60)).sum_eq
  have hun : (l₁.map WeeklyRecord.unmonitored).sum =
      (l₂.map WeeklyRecord.unmonitored).sum :=
    (h.map WeeklyRecord.unmonitored).sum_eq
  simp only [calculate_uptime, foldl_fold_step, hu, hd, hm, hun]

theorem c7_reduce_perm_invariant_witness :
    calculate_uptime "1" "check" [⟨1, 2, 3⟩, ⟨4, 5, 6⟩] =
      calculate_uptime "1" "check" [⟨4, 5, 6⟩, ⟨1, 2, 3⟩] :=
  c7_reduce_perm_invariant "1" "check" _ _ (List.Perm.swap _ _ _)

/-- The collection step keeps every success: on a list of all-`ok` results it
keeps one statistic per result. -/
theorem collectOk_length_all_ok {l : List (Except FetchError UptimeStat)}
    (h : ∀ r ∈ l, ∃ s, r = Except.ok s) : (collectOk l).length = l.length := by
  induction l with
  | nil => rfl
  | cons r m ih =>
    obtain ⟨s, rfl⟩ := h r (List.mem_cons_self r m)
    simp only [collectOk, List.filterMap_cons] at ih ⊢
    simp [ih fun r hr => h r (List.mem_cons_of_mem _ hr)]

/-- C5: if exactly one of the per-check units fails (here: the results list
is `l₁ ++ [error e] ++ l₂` with every element of `l₁` and `l₂` a success),
the collected result set of source line 175 is exactly the successes of the
other units — N−1 statistics, none originating from the failed unit — and
collection is a total function: no error propagates to the run level. -/
theorem c5_single_failure_dropped (l₁ l₂ : List (Except FetchError UptimeStat))
    (e : FetchError) (h₁ : ∀ r ∈ l₁, ∃ s, r = Except.ok s)
    (h₂ : ∀ r ∈ l₂, ∃ s, r = Except.ok s) :
    collectOk (l₁ ++ Except.error e :: l₂) = collectOk l₁ ++ collectOk l₂ ∧
      (collectOk (l₁ ++ Except.error e :: l₂)).length =
        (l₁ ++ Except.error e :: l₂).length - 1 := by
  have happ : collectOk (l₁ ++ Except.error e :: l₂) =
      collectOk l₁ ++ collectOk l₂ := by
    simp [collectOk, List.filterMap_append, List.filterMap_cons]
  refine ⟨happ, ?_⟩
  rw [happ]
  have e₁ : (collectOk l₁).length = l₁.length := collectOk_length_all_ok h₁
  have e₂ : (collectOk l₂).length = l₂.length := collectOk_length_all_ok h₂
  simp only [List.length_append, List.length_cons, e₁, e₂]
  omega

/-- A concrete statistic used to instantiate the orchestrator property. -/
def stat_a : UptimeStat :=
  { id := "1", name := "a", uptime := 1, downtime := 0, unmonitored := 0,
    max_uptime := 1, downtime_mins := 0, percentage := 100 }

/-- A second concrete statistic used to instantiate the orchestrator
property. -/
def stat_b : UptimeStat :=
  { id := "2", name := "b", uptime := 2, downtime := 0, unmonitored := 0,
    max_uptime := 2, downtime_mins := 0, percentage := 100 }

theorem c5_single_failure_dropped_witness :
    collectOk ([Except.ok stat_a] ++
        Except.error FetchError.network :: [Except.ok stat_b]) =
      collectOk [Except.ok stat_a] ++ collectOk [Except.ok stat_b] ∧
      (collectOk ([Except.ok stat_a] ++
        Except.error FetchError.network :: [Except.ok stat_b])).length =
      ([Except.ok stat_a] ++
        Except.error FetchError.network :: [Except.ok stat_b]).length - 1 :=
  c5_single_failure_dropped _ _ _
    (fun r hr => ⟨stat_a, by simpa using hr⟩)
    (fun r hr => ⟨stat_b, by simpa using hr⟩)

/-- C6: the ranker does not sort by the natural bytewise order of the check
name: for the names `"a"` and `"a!"` the sort key is the JSON serialization
(`"\"a\""` and `"\"a!\""`), whose third byte compares `"` (0x22) against
`!` (0x21), so `"a!"` is placed before `"a"` although `"a" < "a!"` in the
name's natural byte order. -/
theorem c6_rank_counterexample :
    ¬ List.Sorted (fun a b : UptimeStat => bytes_le a.name.data b.name.data = true)
      (rank [⟨"1", "a", 0, 0, 0, 0, 0, 0⟩, ⟨"2", "a!", 0, 0, 0, 0, 0, 0⟩]) := by
  decide

/-- Inserting `a` in key order interacts with filtering on an exact key `k`:
all elements skipped before the insertion point have keys strictly below
`rank_key a`, hence differ from `rank_key a`. -/
theorem filter_key_orderedInsert (a : UptimeStat) (l : List UptimeStat)
    (k : List Char) :
    (l.orderedInsert rank_le a).filter (fun s => decide (rank_key s = k)) =
      if rank_key a = k then
        a :: l.filter (fun s => decide (rank_key s = k))
      else l.filter (fun s => decide (rank_key s = k)) := by
  induction l with
  | nil =>
    by_cases hk : rank_key a = k <;> simp [List.orderedInsert, hk]
  | cons b m ih =>
    by_cases hab : rank_le a b
    · by_cases hk : rank_key a = k <;>
        simp [List.orderedInsert, hab, List.filter_cons, hk]
    · have hbk : rank_key b ≠ rank_key a := by
        intro hJ
        apply hab
        show bytes_le (rank_key a) (rank_key b) = true
        rw [hJ]
        exact bytes_le_refl (rank_key a)
      simp only [List.orderedInsert, if_neg hab, List.filter_cons, ih]
      by_cases hk : rank_key a = k
      · have hbk' : ¬ (rank_key b = k) := fun hb => hbk (hb.trans hk.symm)
        simp [hk, hbk']
      · by_cases hbk2 : rank_key b = k <;> simp [hk, hbk2]

/-- Filtering the ranked output on any exact key gives the same sublist as
filtering the input: the ranker preserves the relative order of stats with
equal keys (stability). -/
theorem filter_key_rank (l : List UptimeStat) (k : List Char) :
    (rank l).filter (fun s => decide (rank_key s = k)) =
      l.filter (fun s => decide (rank_key s = k)) := by
  induction l with
  | nil => rfl
  | cons a m ih =>
    show ((rank m).orderedInsert rank_le a).filter _ = _
    rw [filter_key_orderedInsert]
    by_cases hk : rank_key a = k <;> simp [hk, ih, List.filter_cons]

/-- C6 (amended): the ranker sorts ascending by the JSON-serialized form of
the stored name (`a["name"].to_string()`), not by the raw name; it is stable
(for every exact key, filtering the output on that key returns the input's
elements in input order), and it is idempotent. -/
theorem c6_rank_amended (l : List UptimeStat) :
    List.Sorted rank_le (rank l) ∧
      (∀ k : List Char, (rank l).filter (fun s => decide (rank_key s = k)) =
        l.filter (fun s => decide (rank_key s = k))) ∧
      rank (rank l) = rank l :=
  ⟨List.sorted_insertionSort rank_le l, fun k => filter_key_rank l k,
    List.Sorted.insertionSort_eq (List.sorted_insertionSort rank_le l)⟩

/-- C8: on a non-success HTTP status (here 401), `get_perf_summary` does not
return any error at all — the status code is never inspected (there is no
`error_for_status` call); the body comes back as a success and no
`RemoteRejected` error kind exists in the code. -/
theorem c8_status_counterexample :
    get_perf_summary (HttpOutcome.response 401 "Unauthorized") =
        Except.ok "Unauthorized" ∧
      get_perf_summary (HttpOutcome.response 401 "Unauthorized") ≠
        Except.error FetchError.remoteRejected :=
  ⟨rfl, fun h => Except.noConfusion h⟩

/-- C8 (amended): for every HTTP status and body, the client returns the body
as a success — non-success statuses are not turned into errors; the only
error the client itself produces is the transport (`Network`) error.  A bad
status surfaces later, if at all, as a decode failure of the body. -/
theorem c8_status_amended :
    (∀ (status : Nat) (body : String),
        get_perf_summary (HttpOutcome.response status body) = Except.ok body) ∧
      get_perf_summary HttpOutcome.netError = Except.error FetchError.network :=
  ⟨fun _ _ => rfl, rfl⟩

/-- C9: whenever the reducer returns a statistic (i.e. does not hit the
`max_uptime = 0` panic), its percentage lies in `[0, 100]` and is an integer
number of 1/10000ths, i.e. it carries exactly 4 decimal places. -/
theorem c9_percentage_bounds (i n : String) (l : List WeeklyRecord)
    (s : UptimeStat) (hs : calculate_uptime i n l = some s) :
    0 ≤ s.percentage ∧ s.percentage ≤ 100 ∧
      ∃ k : ℤ, s.percentage = (k : ℚ) / 10000 := by
  simp only [calculate_uptime] at hs
  split_ifs at hs with h
  injection hs with hs
  subst hs
  exact ⟨(percentage_aux _ _ _ h).1, (percentage_aux _ _ _ h).2, _, rfl⟩

/-- The statistic the reducer produces for the single record
`{uptime 0, downtime 130, unmonitored 0}`. -/
def stat_one_record : UptimeStat :=
  { id := "1", name := "check", uptime := 0, downtime := 130, unmonitored := 0,
    max_uptime := 130, downtime_mins := 2, percentage := 0 }

theorem c9_percentage_bounds_witness :
    0 ≤ stat_one_record.percentage ∧ stat_one_record.percentage ≤ 100 ∧
      ∃ k : ℤ, stat_one_record.percentage = (k : ℚ) / 10000 :=
  c9_percentage_bounds "1" "check" [⟨0, 130, 0⟩] stat_one_record
    (by simp [calculate_uptime, fold_step, stat_one_record])

end Pingdom
